import Mathlib

/-!
Verification development for the Google-Drive synchronization module
(`cps/gdriveutils.py`) of calibre-web: a shallow embedding of its
chunk-range splitter, chunked streaming downloader, path-to-id cache
resolution, cache maintenance operations, permission-grant guard and
schema migration, together with proofs and refutations of the
specification's claims about them.
-/

/-! ## Chunked range splitter

Embedding of `partial(total_byte_len, part_size_limit)`:

    s = []
    for p in range(0, total_byte_len, part_size_limit):
        last = min(total_byte_len - 1, p + part_size_limit - 1)
        s.append([p, last])
    return s

`partGo total limit p` models the loop from index `p` on (all in-loop
quantities are non-negative, so `Nat` is exact).  `splitRanges` wraps it:
a zero step makes Python's `range` raise `ValueError`, modelled as `none`.
-/

def partGo (total limit p : Nat) : List (Nat × Nat) :=
  if h : p < total ∧ 0 < limit then
    (p, min (total - 1) (p + limit - 1)) :: partGo total limit (p + limit)
  else
    []
termination_by total - p
decreasing_by
  omega

def splitRanges (total limit : Nat) : Option (List (Nat × Nat)) :=
  if limit = 0 then none else some (partGo total limit 0)

lemma partGo_nil (total limit p : Nat) (h : ¬ p < total) :
    partGo total limit p = [] := by
  rw [partGo]
  simp [h]

lemma partGo_cons (total limit p : Nat) (h : p < total) (hl : 0 < limit) :
    partGo total limit p =
      (p, min (total - 1) (p + limit - 1)) :: partGo total limit (p + limit) := by
  rw [partGo]
  simp [h, hl]

lemma partGo_head (total limit p : Nat) (h : p < total) (hl : 0 < limit) :
    (partGo total limit p).head? = some (p, min (total - 1) (p + limit - 1)) := by
  rw [partGo_cons total limit p h hl]
  rfl

lemma partGo_chain (total limit : Nat) (hl : 0 < limit) :
    ∀ p, List.Chain' (fun a b : Nat × Nat => b.1 = a.2 + 1) (partGo total limit p) := by
  intro p
  have H : ∀ n p, total - p ≤ n →
      List.Chain' (fun a b : Nat × Nat => b.1 = a.2 + 1) (partGo total limit p) := by
    intro n
    induction n with
    | zero =>
      intro p hp
      rw [partGo_nil total limit p (by omega)]
      exact List.chain'_nil
    | succ n ih =>
      intro p hp
      by_cases hlt : p < total
      · rw [partGo_cons total limit p hlt hl]
        rw [List.chain'_cons']
        refine ⟨?_, ih (p + limit) (by omega)⟩
        intro b hb
        by_cases hnext : p + limit < total
        · rw [partGo_head total limit (p + limit) hnext hl] at hb
          simp only [Option.mem_def, Option.some.injEq] at hb
          subst hb
          simp only
          omega
        · rw [partGo_nil total limit (p + limit) hnext] at hb
          simp at hb
      · rw [partGo_nil total limit p hlt]
        exact List.chain'_nil
  exact H (total - p) p le_rfl

lemma partGo_last (total limit : Nat) (hl : 0 < limit) :
    ∀ p, p < total → ∃ q, (partGo total limit p).getLast? = some (q, total - 1) := by
  have H : ∀ n p, total - p ≤ n → p < total →
      ∃ q, (partGo total limit p).getLast? = some (q, total - 1) := by
    intro n
    induction n with
    | zero =>
      intro p hp hlt
      omega
    | succ n ih =>
      intro p hp hlt
      rw [partGo_cons total limit p hlt hl]
      by_cases hnext : p + limit < total
      · obtain ⟨q, hq⟩ := ih (p + limit) (by omega) hnext
        refine ⟨q, ?_⟩
        obtain ⟨y, ys, hys⟩ : ∃ y ys, partGo total limit (p + limit) = y :: ys :=
          ⟨_, _, partGo_cons total limit (p + limit) hnext hl⟩
        rw [hys]
        rw [List.getLast?_cons_cons]
        rw [hys] at hq
        exact hq
      · rw [partGo_nil total limit (p + limit) hnext]
        refine ⟨p, ?_⟩
        have : min (total - 1) (p + limit - 1) = total - 1 := by omega
        rw [this]
        rfl
  intro p hlt
  exact H (total - p) p le_rfl hlt

lemma partGo_mem (total limit : Nat) (hl : 0 < limit) :
    ∀ p, ∀ r ∈ partGo total limit p,
      p ≤ r.1 ∧ r.1 ≤ r.2 ∧ r.2 + 1 ≤ r.1 + limit ∧ r.2 ≤ total - 1 := by
  intro p
  have H : ∀ n p, total - p ≤ n → ∀ r ∈ partGo total limit p,
      p ≤ r.1 ∧ r.1 ≤ r.2 ∧ r.2 + 1 ≤ r.1 + limit ∧ r.2 ≤ total - 1 := by
    intro n
    induction n with
    | zero =>
      intro p hp r hr
      rw [partGo_nil total limit p (by omega)] at hr
      simp at hr
    | succ n ih =>
      intro p hp r hr
      by_cases hlt : p < total
      · rw [partGo_cons total limit p hlt hl] at hr
        rcases List.mem_cons.mp hr with h | h
        · subst h
          refine ⟨le_rfl, ?_, ?_, ?_⟩ <;> simp only <;> omega
        · have := ih (p + limit) (by omega) r h
          omega
      · rw [partGo_nil total limit p hlt] at hr
        simp at hr
  exact H (total - p) p le_rfl

/-- Claim C1: for every non-negative `totalLength` and positive `chunkSize`,
`splitRanges` (the source function `partial`) returns an ordered sequence of
inclusive pairs that contiguously, non-overlappingly and exactly cover
`[0, totalLength-1]`, every pair spanning at most `chunkSize` bytes, the
final pair ending at `totalLength-1`; `totalLength = 0` yields the empty
sequence, and `splitRanges 10 4 = [[0,3],[4,7],[8,9]]`. -/
theorem claim_C1_split_ranges (L C : Nat) (hC : 0 < C) :
    ∃ rs, splitRanges L C = some rs ∧
      (L = 0 → rs = []) ∧
      (0 < L → (rs.head?).map Prod.fst = some 0) ∧
      List.Chain' (fun a b : Nat × Nat => b.1 = a.2 + 1) rs ∧
      (0 < L → (rs.getLast?).map Prod.snd = some (L - 1)) ∧
      (∀ r ∈ rs, r.1 ≤ r.2 ∧ r.2 + 1 ≤ r.1 + C ∧ r.2 ≤ L - 1) ∧
      splitRanges 10 4 = some [(0, 3), (4, 7), (8, 9)] := by
  refine ⟨partGo L C 0, ?_, ?_, ?_, ?_, ?_, ?_, ?_⟩
  · simp [splitRanges, Nat.pos_iff_ne_zero.mp hC]
  · intro h0
    subst h0
    exact partGo_nil 0 C 0 (by omega)
  · intro hL
    rw [partGo_head L C 0 hL hC]
    rfl
  · exact partGo_chain L C hC 0
  · intro hL
    obtain ⟨q, hq⟩ := partGo_last L C hC 0 hL
    rw [hq]
    rfl
  · intro r hr
    have := partGo_mem L C hC 0 r hr
    exact ⟨this.2.1, this.2.2.1, this.2.2.2⟩
  · show splitRanges 10 4 = some [(0, 3), (4, 7), (8, 9)]
    rw [splitRanges]
    norm_num
    rw [partGo_cons 10 4 0 (by omega) (by omega)]
    rw [partGo_cons 10 4 4 (by omega) (by omega)]
    rw [partGo_cons 10 4 8 (by omega) (by omega)]
    rw [partGo_nil 10 4 12 (by omega)]
    norm_num

/-- Witness for C1 at `L = 10`, `C = 4`. -/
theorem claim_C1_witness :
    (0 < 4) ∧ ∃ rs, splitRanges 10 4 = some rs ∧
      (10 = 0 → rs = []) ∧
      (0 < 10 → (rs.head?).map Prod.fst = some 0) ∧
      List.Chain' (fun a b : Nat × Nat => b.1 = a.2 + 1) rs ∧
      (0 < 10 → (rs.getLast?).map Prod.snd = some (10 - 1)) ∧
      (∀ r ∈ rs, r.1 ≤ r.2 ∧ r.2 + 1 ≤ r.1 + 4 ∧ r.2 ≤ 10 - 1) ∧
      splitRanges 10 4 = some [(0, 3), (4, 7), (8, 9)] :=
  ⟨by decide, claim_C1_split_ranges 10 4 (by decide)⟩

/-! ## Streaming downloader

Embedding of the generator in `do_gdrive_download(df, headers)`:

    s = partial(total_size, 1024 * 1024)
    def stream():
        for byte in s:
            headers = {"Range": 'bytes=%s-%s' % (byte[0], byte[1])}
            resp, content = df.auth.Get_Http_Object().request(download_url, headers=headers)
            if resp.status == 206:
                yield content
            else:
                logger.warning('An error occurred: %s', resp)
                return

The HTTP transport is the environment: `fetch` maps a byte range to the
response (status and body) that the remote returns for it.  `streamChunks`
is the generator's yielded sequence; `do_gdrive_download` instantiates it
on the ranges computed by the splitter with the hard-coded 1 MiB chunk. -/

structure RangeResponse where
  status : Nat
  content : String

def streamChunks (fetch : Nat × Nat → RangeResponse) : List (Nat × Nat) → List String
  | [] => []
  | r :: rest =>
    let resp := fetch r
    if resp.status = 206 then resp.content :: streamChunks fetch rest
    else []

def do_gdrive_download (totalSize : Nat) (fetch : Nat × Nat → RangeResponse) : List String :=
  streamChunks fetch (partGo totalSize (1024 * 1024) 0)

lemma streamChunks_eq_takeWhile (fetch : Nat × Nat → RangeResponse) :
    ∀ rs : List (Nat × Nat),
      streamChunks fetch rs =
        (rs.takeWhile (fun r => (fetch r).status == 206)).map (fun r => (fetch r).content) := by
  intro rs
  induction rs with
  | nil => rfl
  | cons r rest ih =>
    by_cases h : (fetch r).status = 206
    · rw [streamChunks]
      simp only [h, if_pos rfl]
      rw [List.takeWhile_cons]
      simp [h, ih]
    · rw [streamChunks]
      rw [List.takeWhile_cons]
      simp [h]

/-- Claim C5: in the streaming downloader, a range's chunk content is yielded
iff its range request returns HTTP 206 and every earlier request did too: the
yielded sequence is exactly the contents of the longest all-206 prefix of the
computed range sequence, so the first non-206 response ends the stream (no
exception is raised: `streamChunks` is total) and no later chunk is yielded. -/
theorem claim_C5_stream_takeWhile (totalSize : Nat) (fetch : Nat × Nat → RangeResponse) :
    do_gdrive_download totalSize fetch =
      ((partGo totalSize (1024 * 1024) 0).takeWhile
        (fun r => (fetch r).status == 206)).map (fun r => (fetch r).content) :=
  streamChunks_eq_takeWhile fetch (partGo totalSize (1024 * 1024) 0)

/-! ## Path-to-id cache and folder resolution

Shallow embedding of the `gdrive_ids` cache and the resolution functions
`getEbooksFolderId` / `getFolderInFolder` / `getFolderId`.

State: `DriveState` carries the committed cache rows (a `GdriveRow` embeds
one `GdriveId` ORM row: `gdrive_id` may be SQL NULL, hence `Option Nat`),
the `permissions_added` rows, and instrumentation counters — the number of
remote `ListFile(...).GetList()` calls issued, the number of error-log
lines, and the number of permission-grant calls.  `session.merge` of a
fresh row followed by `commit` is an append (rows have an auto-increment
surrogate key, so `first()` returns the earliest inserted match, which
`List.find?` mirrors).

Environment: `Remote` is the Google-Drive side.  `root` is the outcome of
`getEbooksFolder(drive)` — the listing for the configured library folder
under the account root: it can raise (`err`), return an empty list
(`notFound`, in which case the subscript `...['id']` raises `TypeError`),
or return the folder (`found id`).  `children parent name` is the result of
`getFolderInFolder(parent, name, drive)` for non-root parents: the parent
forwarded by the code can be Python `None` (interpolated as the literal
query text `'None' in parents`), hence `Option Nat`.

Faithfulness notes kept from the source:
* `getEbooksFolderId` ends in a bare `return`, so on a cache miss it
  returns `None` even when root discovery succeeded and the fresh row was
  committed; and when discovery raises, the caught exception still falls
  through to `session.merge`/`commit`, committing a row for path `/` whose
  `gdrive_id` is NULL.
* `getFolderId(path, drive)` evaluates `path[-1]`, which raises
  `IndexError` on the empty path: the overall result is `Option`-valued,
  `none` modelling the uncaught exception (state changes already committed
  by `getEbooksFolderId` persist).
* Python's `path.split('/')` is `splitOnChar`, `"/".join(...)` is
  `joinSlash`, and `path[-1] == '/'` is `lastCharIsSlash`.
-/

structure GdriveRow where
  gdrive_id : Option Nat
  path : String
deriving DecidableEq

inductive RootResult where
  | err
  | notFound
  | found (id : Nat)
deriving DecidableEq

structure Remote where
  root : RootResult
  children : Option Nat → String → Option Nat

structure DriveState where
  cache : List GdriveRow
  perms : List Nat
  remoteCalls : Nat
  logErrors : Nat
  grantCalls : Nat
deriving DecidableEq

def splitOnChar (sep : Char) : List Char → List (List Char)
  | [] => [[]]
  | c :: cs =>
    let r := splitOnChar sep cs
    if c = sep then [] :: r
    else
      match r with
      | [] => [[c]]
      | h :: t => (c :: h) :: t

def pathParts (s : String) : List String :=
  (splitOnChar '/' s.data).map String.mk

def joinSlash : List String → String
  | [] => ""
  | [s] => s
  | s :: rest => s ++ "/" ++ joinSlash rest

def lastCharIsSlash (s : String) : Bool :=
  s.data.getLast? = some '/'

def queryPathFirst (rows : List GdriveRow) (p : String) : Option GdriveRow :=
  rows.find? (fun r => r.path = p)

def getFolderInFolder (remote : Remote) (parentId : Option Nat) (folderName : String)
    (st : DriveState) : Option Nat × DriveState :=
  (remote.children parentId folderName, { st with remoteCalls := st.remoteCalls + 1 })

def getEbooksFolderId (remote : Remote) (st : DriveState) : Option Nat × DriveState :=
  match queryPathFirst st.cache "/" with
  | some row => (row.gdrive_id, st)
  | none =>
    let st1 := { st with remoteCalls := st.remoteCalls + 1 }
    match remote.root with
    | RootResult.found rid =>
      (none, { st1 with cache := st1.cache ++ [⟨some rid, "/"⟩] })
    | RootResult.notFound =>
      (none, { st1 with
               cache := st1.cache ++ [⟨none, "/"⟩]
               logErrors := st1.logErrors + 1 })
    | RootResult.err =>
      (none, { st1 with
               cache := st1.cache ++ [⟨none, "/"⟩]
               logErrors := st1.logErrors + 1 })

def walk (remote : Remote) (pre : List String) (parts : List String)
    (currentFolderId : Option Nat) (dbChange : Bool) (st : DriveState) :
    Option Nat × Bool × DriveState :=
  match parts with
  | [] => (currentFolderId, dbChange, st)
  | x :: rest =>
    if 0 < x.length then
      let joined := joinSlash (pre ++ [x])
      let currentPath := if lastCharIsSlash joined then joined else joined ++ "/"
      match queryPathFirst st.cache currentPath with
      | some row => walk remote (pre ++ [x]) rest row.gdrive_id dbChange st
      | none =>
        let ff := getFolderInFolder remote currentFolderId x st
        match ff.1 with
        | some cid =>
          walk remote (pre ++ [x]) rest (some cid) true
            { ff.2 with cache := ff.2.cache ++ [⟨some cid, currentPath⟩] }
        | none => (none, dbChange, ff.2)
    else
      walk remote (pre ++ [x]) rest currentFolderId dbChange st

def getFolderId (path : String) (remote : Remote) (st : DriveState) :
    Option (Option Nat) × DriveState :=
  let r0 := getEbooksFolderId remote st
  if path = "" then (none, r0.2)
  else
    let sqlCheckPath := if lastCharIsSlash path then path else path ++ "/"
    match queryPathFirst r0.2.cache sqlCheckPath with
    | some row => (some row.gdrive_id, r0.2)
    | none =>
      let w := walk remote [] (pathParts path) r0.1 false r0.2
      (some w.1, w.2.2)

/-- The empty local state: empty cache, no permissions, zeroed counters. -/
def st0 : DriveState :=
  { cache := [], perms := [], remoteCalls := 0, logErrors := 0, grantCalls := 0 }

/-- The remote of the C2 scenario, root → "Books" → "Author1": discovery of
the configured library folder yields the "Books" folder (id 1), whose only
listed child folder is "Author1" (id 2); every other listing is empty. -/
def remoteBooks : Remote :=
  { root := RootResult.found 1
  , children := fun parent name =>
      if parent = some 1 ∧ name = "Author1" then some 2 else none }

/-- A remote whose root-discovery listing raises. -/
def errRemote : Remote :=
  { root := RootResult.err, children := fun _ _ => none }

/-- Counterexample to claim C2: in the claimed scenario (empty path cache,
remote tree root → "Books" → "Author1", given by `remoteBooks`), resolving
"Author1/" does NOT perform three remote lookups leaving three cache rows
with paths "/", "Books/", "Books/Author1/" — it performs two lookups and
leaves a single row "/" (root discovery succeeds but `getEbooksFolderId`
returns `None`, so the walk queries children of parent `None` and fails). -/
theorem claim_C2_counterexample :
    ¬ ((getFolderId "Author1/" remoteBooks st0).2.remoteCalls = 3 ∧
       (getFolderId "Author1/" remoteBooks st0).2.cache.map GdriveRow.path =
         ["/", "Books/", "Books/Author1/"]) := by
  decide

/-- Claim C2 as amended to the code's behaviour: from the empty cache with
remote root → "Books" → "Author1", the first resolution of "Author1/" issues
two remote lookups, caches only the root row "/" and fails (returns `None`,
because `getEbooksFolderId` ends in a bare `return` and the walk then lists
children of parent `None`); a second resolution issues one further remote
lookup, succeeds with Author1's id and caches "Author1/"; only a third
resolution issues zero remote lookups and leaves the state unchanged, so
resolution becomes remote-query idempotent one call later than claimed, and
no row named "Books/" or "Books/Author1/" ever appears. -/
theorem claim_C2_amended :
    (getFolderId "Author1/" remoteBooks st0).2.remoteCalls = 2 ∧
    (getFolderId "Author1/" remoteBooks st0).2.cache.map GdriveRow.path = ["/"] ∧
    (getFolderId "Author1/" remoteBooks st0).1 = some none ∧
    (getFolderId "Author1/" remoteBooks
        (getFolderId "Author1/" remoteBooks st0).2).2.remoteCalls = 3 ∧
    (getFolderId "Author1/" remoteBooks
        (getFolderId "Author1/" remoteBooks st0).2).2.cache.map GdriveRow.path =
      ["/", "Author1/"] ∧
    (getFolderId "Author1/" remoteBooks
        (getFolderId "Author1/" remoteBooks st0).2).1 = some (some 2) ∧
    (getFolderId "Author1/" remoteBooks
        (getFolderId "Author1/" remoteBooks
          (getFolderId "Author1/" remoteBooks st0).2).2) =
      (some (some 2),
        (getFolderId "Author1/" remoteBooks
          (getFolderId "Author1/" remoteBooks st0).2).2) := by
  decide

/-- Cache state holding an exact-match row for "Books/" but no root row. -/
def stBooksOnly : DriveState :=
  { cache := [⟨some 5, "Books/"⟩], perms := [], remoteCalls := 0, logErrors := 0,
    grantCalls := 0 }

/-- Counterexample to claim C3: with an exact-match row for "Books/" cached
but no root row "/", `getFolderId "Books"` does return the cached id 5, yet
it issues one remote lookup (root discovery inside `getEbooksFolderId`), so
the resolution is NOT remote-call-free regardless of which other rows are
present. -/
theorem claim_C3_counterexample :
    ¬ ((getFolderId "Books" remoteBooks stBooksOnly).1 = some (some 5) →
       (getFolderId "Books" remoteBooks stBooksOnly).2.remoteCalls =
         stBooksOnly.remoteCalls) := by
  decide

/-- Claim C3 as amended: if the root row "/" is cached AND the normalized
form of `path` has an exact-match row, `getFolderId` returns that row's
`gdrive_id` with the state unchanged — in particular zero remote calls.
(The original claim's "regardless of what other rows are present" fails:
when the root row "/" is absent, `getEbooksFolderId` performs a remote
root-discovery lookup before the exact-match hit is consulted.) -/
theorem claim_C3_amended (path : String) (remote : Remote) (st : DriveState)
    (rr r : GdriveRow)
    (hpath : path ≠ "")
    (hroot : queryPathFirst st.cache "/" = some rr)
    (hhit : queryPathFirst st.cache
      (if lastCharIsSlash path then path else path ++ "/") = some r) :
    getFolderId path remote st = (some r.gdrive_id, st) := by
  simp only [getFolderId, getEbooksFolderId, hroot, hhit, if_neg hpath]

/-- Witness for the amended C3: cache `[{9, "/"}, {5, "Books/"}]`, resolving
"Books" returns id 5 and leaves the state untouched. -/
theorem claim_C3_witness :
    ("Books" ≠ "") ∧
    queryPathFirst [⟨some 9, "/"⟩, ⟨some 5, "Books/"⟩] "/" = some ⟨some 9, "/"⟩ ∧
    queryPathFirst [⟨some 9, "/"⟩, ⟨some 5, "Books/"⟩]
      (if lastCharIsSlash "Books" then "Books" else "Books" ++ "/") =
        some ⟨some 5, "Books/"⟩ ∧
    getFolderId "Books" remoteBooks
      { cache := [⟨some 9, "/"⟩, ⟨some 5, "Books/"⟩], perms := [], remoteCalls := 0,
        logErrors := 0, grantCalls := 0 } =
      (some (some 5),
        { cache := [⟨some 9, "/"⟩, ⟨some 5, "Books/"⟩], perms := [], remoteCalls := 0,
          logErrors := 0, grantCalls := 0 }) :=
  ⟨by decide, by decide, by decide,
    claim_C3_amended "Books" remoteBooks
      { cache := [⟨some 9, "/"⟩, ⟨some 5, "Books/"⟩], perms := [], remoteCalls := 0,
        logErrors := 0, grantCalls := 0 }
      ⟨some 9, "/"⟩ ⟨some 5, "Books/"⟩ (by decide) (by decide) (by decide)⟩

/-- Claim C4: when the root row "/" is not cached and the remote root
listing raises, `getEbooksFolderId` logs the error (the error counter is
incremented exactly once) and returns `None` ("not found"); the embedding
is a total function, so no exception propagates to the caller. -/
theorem claim_C4_root_error (remote : Remote) (st : DriveState)
    (hmiss : queryPathFirst st.cache "/" = none)
    (herr : remote.root = RootResult.err) :
    ∃ st', getEbooksFolderId remote st = (none, st') ∧
      st'.logErrors = st.logErrors + 1 := by
  simp only [getEbooksFolderId, hmiss, herr]
  exact ⟨_, rfl, rfl⟩

/-- Witness for C4: the failing remote on the empty state. -/
theorem claim_C4_witness :
    queryPathFirst st0.cache "/" = none ∧
    errRemote.root = RootResult.err ∧
    (∃ st', getEbooksFolderId errRemote st0 = (none, st') ∧
      st'.logErrors = st0.logErrors + 1) :=
  ⟨by decide, by decide, claim_C4_root_error errRemote st0 (by decide) (by decide)⟩

lemma walk_cache_rows (remote : Remote) :
    ∀ parts pre cfid dbc st r,
      r ∈ (walk remote pre parts cfid dbc st).2.2.cache →
      r ∈ st.cache ∨ r.gdrive_id ≠ none := by
  intro parts
  induction parts with
  | nil =>
    intro pre cfid dbc st r hr
    exact Or.inl hr
  | cons x rest ih =>
    intro pre cfid dbc st r hr
    rw [walk] at hr
    simp only [getFolderInFolder] at hr
    split at hr
    · split at hr
      · exact ih _ _ _ _ r hr
      · split at hr
        · rcases ih _ _ _ _ r hr with hmem | hsome
          · simp only [List.mem_append, List.mem_singleton] at hmem
            rcases hmem with h1 | h2
            · exact Or.inl h1
            · subst h2
              exact Or.inr (by simp)
          · exact Or.inr hsome
        · exact Or.inl hr
    · exact ih _ _ _ _ r hr

lemma getEbooksFolderId_cache_rows (remote : Remote) (st : DriveState)
    (h : queryPathFirst st.cache "/" ≠ none ∨
      ∃ rid, remote.root = RootResult.found rid) :
    ∀ q ∈ (getEbooksFolderId remote st).2.cache, q ∈ st.cache ∨ q.gdrive_id ≠ none := by
  intro q hq
  rw [getEbooksFolderId] at hq
  split at hq
  · exact Or.inl hq
  · rcases h with hroot | ⟨rid, hrid⟩
    · simp_all
    · rw [hrid] at hq
      simp only [List.mem_append, List.mem_singleton] at hq
      rcases hq with h1 | h2
      · exact Or.inl h1
      · subst h2
        exact Or.inr (by simp)

/-- Counterexample to claim C8: starting from the empty cache, a failed
root discovery in `getEbooksFolderId` still falls through to
`session.merge`/`session.commit`, committing a cache row for path "/"
whose `gdrive_id` is SQL NULL — so a cache row whose remoteId is absent
IS inserted and committed. -/
theorem claim_C8_counterexample :
    (getEbooksFolderId errRemote st0).2.cache = [⟨none, "/"⟩] := by
  decide

/-- Claim C8 as amended: every cache row inserted during the per-component
walk of `getFolderId` carries a remote-resolved id; the only operation that
can commit a row with an absent remoteId is `getEbooksFolderId` when root
discovery fails.  Hence, whenever the root row is already cached or root
discovery succeeds, every row in the cache after a resolution either
pre-existed or holds a remote-resolved (non-null) id. -/
theorem claim_C8_amended (path : String) (remote : Remote) (st : DriveState)
    (h : queryPathFirst st.cache "/" ≠ none ∨
      ∃ rid, remote.root = RootResult.found rid) :
    ∀ r ∈ (getFolderId path remote st).2.cache, r ∈ st.cache ∨ r.gdrive_id ≠ none := by
  intro r hr
  have hroot := getEbooksFolderId_cache_rows remote st h
  rw [getFolderId] at hr
  split at hr
  · exact hroot r hr
  · split at hr
    · dsimp only at hr
      split at hr
      · exact hroot r hr
      · rcases walk_cache_rows remote (pathParts path) [] _ false _ r hr with hmem | hsome
        · exact hroot r hmem
        · exact Or.inr hsome
    · dsimp only at hr
      split at hr
      · exact hroot r hr
      · rcases walk_cache_rows remote (pathParts path) [] _ false _ r hr with hmem | hsome
        · exact hroot r hmem
        · exact Or.inr hsome

/-- Witness for the amended C8: the C2 scenario (successful root
discovery) — every row cached by resolving "Author1/" from the empty
state holds a non-null id. -/
theorem claim_C8_witness :
    (queryPathFirst st0.cache "/" ≠ none ∨
      ∃ rid, remoteBooks.root = RootResult.found rid) ∧
    (∀ r ∈ (getFolderId "Author1/" remoteBooks st0).2.cache,
      r ∈ st0.cache ∨ r.gdrive_id ≠ none) :=
  ⟨Or.inr ⟨1, rfl⟩,
    claim_C8_amended "Author1/" remoteBooks st0 (Or.inr ⟨1, rfl⟩)⟩

/-! ## Cache maintenance, permission grant, deletion

Embeddings of `updateDatabaseOnEdit(ID, newPath)` (rename),
`deleteDatabaseOnChange()` (invalidateAll), `deleteDatabaseEntry(ID)`
(delete) and the permission-guard logic of `get_cover_via_gdrive`.

`updateDatabaseOnEdit` evaluates `newPath[-1]`, raising `IndexError` on
the empty string, hence the `Option` result.  The ORM update mutates the
first row returned by `first()`, i.e. the earliest matching row:
`setPathFirst`.  `get_cover_via_gdrive` takes the already-looked-up file
`df` (the result of `getFileFromEbooksFolder`) as environment; the
permission branch performs the `InsertPermission` grant call (counted in
`grantCalls`) and adds one `permissions_added` row, exactly when no row
for `df['id']` exists. -/

def setPathFirst (ID : Nat) (p : String) : List GdriveRow → List GdriveRow
  | [] => []
  | r :: rs =>
    if r.gdrive_id = some ID then { r with path := p } :: rs
    else r :: setPathFirst ID p rs

def updateDatabaseOnEdit (ID : Nat) (newPath : String) (st : DriveState) :
    Option DriveState :=
  if newPath = "" then none
  else
    let sqlCheckPath := if lastCharIsSlash newPath then newPath else newPath ++ "/"
    match st.cache.find? (fun r => r.gdrive_id == some ID) with
    | some _ => some { st with cache := setPathFirst ID sqlCheckPath st.cache }
    | none => some st

def deleteDatabaseOnChange (st : DriveState) : DriveState :=
  { st with cache := [] }

def deleteDatabaseEntry (ID : Nat) (st : DriveState) : DriveState :=
  { st with cache := st.cache.filter (fun r => !(r.gdrive_id == some ID)) }

structure DriveFile where
  id : Nat
  webContentLink : String

def get_cover_via_gdrive (df : Option DriveFile) (st : DriveState) :
    Option String × DriveState :=
  match df with
  | none => (none, st)
  | some f =>
    match st.perms.find? (fun g => g == f.id) with
    | some _ => (some f.webContentLink, st)
    | none =>
      (some f.webContentLink,
        { st with perms := st.perms ++ [f.id]
                  grantCalls := st.grantCalls + 1 })

lemma setPathFirst_split (ID : Nat) (p : String) :
    ∀ pre (row : GdriveRow) post, (∀ q ∈ pre, q.gdrive_id ≠ some ID) →
      row.gdrive_id = some ID →
      setPathFirst ID p (pre ++ row :: post) = pre ++ { row with path := p } :: post := by
  intro pre
  induction pre with
  | nil =>
    intro row post _ hrow
    simp [setPathFirst, hrow]
  | cons q qs ih =>
    intro row post hpre hrow
    simp only [List.cons_append, setPathFirst]
    rw [if_neg (hpre q (List.mem_cons_self q qs))]
    simp only [List.append_eq]
    rw [ih row post (fun a ha => hpre a (List.mem_cons_of_mem q ha)) hrow]

/-- Claim C7: `updateDatabaseOnEdit(ID, newPath)` (rename): if a cache row
exists for `ID`, the earliest such row's path is overwritten with `newPath`
normalized to end in "/" and committed (all other rows untouched); if no
row exists for `ID`, the call is a no-op leaving the state — row count and
contents — unchanged.  (Stated for nonempty `newPath`; the code indexes
`newPath[-1]`.) -/
theorem claim_C7_rename (ID : Nat) (newPath : String) (st : DriveState)
    (h : newPath ≠ "") :
    ((∀ q ∈ st.cache, q.gdrive_id ≠ some ID) →
      updateDatabaseOnEdit ID newPath st = some st) ∧
    (∀ pre (row : GdriveRow) post, st.cache = pre ++ row :: post →
      (∀ q ∈ pre, q.gdrive_id ≠ some ID) → row.gdrive_id = some ID →
      updateDatabaseOnEdit ID newPath st =
        some { st with cache := pre ++
          { row with path :=
            if lastCharIsSlash newPath then newPath else newPath ++ "/" } :: post }) := by
  constructor
  · intro hnone
    have hfind : st.cache.find? (fun r => r.gdrive_id == some ID) = none := by
      rw [List.find?_eq_none]
      intro x hx
      simpa using hnone x hx
    rw [updateDatabaseOnEdit, if_neg h]
    simp only [hfind]
  · intro pre row post hsplit hpre hrow
    have hmem : row ∈ st.cache := by
      rw [hsplit]
      exact List.mem_append_right pre (List.mem_cons_self row post)
    rcases hfind : st.cache.find? (fun r => r.gdrive_id == some ID) with _ | q
    · exfalso
      rw [List.find?_eq_none] at hfind
      have := hfind row hmem
      simp [hrow] at this
    · rw [updateDatabaseOnEdit, if_neg h]
      simp only [hfind]
      rw [hsplit]
      rw [setPathFirst_split ID _ pre row post hpre hrow]

/-- A two-row cache state used as the C7 witness input. -/
def stTwoRows : DriveState := ⟨[⟨some 3, "A/"⟩, ⟨some 7, "Old/"⟩], [], 0, 0, 0⟩

/-- Witness for C7: renaming id 7 in a two-row cache rewrites the matching
row's path to "New/"; renaming the untracked id 8 changes nothing. -/
theorem claim_C7_witness :
    ("New" ≠ "") ∧
    updateDatabaseOnEdit 7 "New" stTwoRows =
      some ⟨[⟨some 3, "A/"⟩, ⟨some 7, "New/"⟩], [], 0, 0, 0⟩ ∧
    updateDatabaseOnEdit 8 "New" stTwoRows = some stTwoRows := by
  refine ⟨by decide, ?_, ?_⟩
  · have := (claim_C7_rename 7 "New" stTwoRows (by decide)).2
      [⟨some 3, "A/"⟩] ⟨some 7, "Old/"⟩ [] (by decide) (by decide) (by decide)
    simpa [stTwoRows] using this
  · have := (claim_C7_rename 8 "New" stTwoRows (by decide)).1 (by decide)
    simpa using this

/-- Claim C9: the public-permission grant is issued at most once per remote
file id.  If no `permissions_added` row exists for `f.id`, the first request
returns the public link, performs exactly one grant call and inserts exactly
one row for `f.id`; a second request for the same id finds the row via the
existence check and performs no further grant call or insert — the state is
returned unchanged. -/
theorem claim_C9_permission_once (f : DriveFile) (st : DriveState)
    (h : f.id ∉ st.perms) :
    (get_cover_via_gdrive (some f) st).1 = some f.webContentLink ∧
    (get_cover_via_gdrive (some f) st).2.perms = st.perms ++ [f.id] ∧
    (get_cover_via_gdrive (some f) st).2.perms.count f.id = 1 ∧
    (get_cover_via_gdrive (some f) st).2.grantCalls = st.grantCalls + 1 ∧
    (get_cover_via_gdrive (some f) st).2.cache = st.cache ∧
    get_cover_via_gdrive (some f) (get_cover_via_gdrive (some f) st).2 =
      (some f.webContentLink, (get_cover_via_gdrive (some f) st).2) := by
  have hfind : st.perms.find? (fun g => g == f.id) = none := by
    rw [List.find?_eq_none]
    intro x hx
    simp only [beq_iff_eq]
    intro hx2
    exact h (hx2 ▸ hx)
  have hmain : get_cover_via_gdrive (some f) st =
      (some f.webContentLink,
        { st with perms := st.perms ++ [f.id]
                  grantCalls := st.grantCalls + 1 }) := by
    rw [get_cover_via_gdrive, hfind]
  refine ⟨by rw [hmain], by rw [hmain], ?_, by rw [hmain], by rw [hmain], ?_⟩
  · rw [hmain]
    simp [List.count_append, List.count_eq_zero_of_not_mem h]
  · rw [hmain]
    rcases hf2 : (st.perms ++ [f.id]).find? (fun g => g == f.id) with _ | q
    · exfalso
      rw [List.find?_eq_none] at hf2
      have := hf2 f.id (List.mem_append_right st.perms (List.mem_singleton.mpr rfl))
      simp at this
    · rw [get_cover_via_gdrive]
      simp only [hf2]

/-- Witness for C9: file id 1 against the empty state. -/
theorem claim_C9_witness :
    ((1 : Nat) ∉ st0.perms) ∧
    ((get_cover_via_gdrive (some ⟨1, "link"⟩) st0).1 = some "link" ∧
     (get_cover_via_gdrive (some ⟨1, "link"⟩) st0).2.perms = st0.perms ++ [1] ∧
     (get_cover_via_gdrive (some ⟨1, "link"⟩) st0).2.perms.count 1 = 1 ∧
     (get_cover_via_gdrive (some ⟨1, "link"⟩) st0).2.grantCalls = st0.grantCalls + 1 ∧
     (get_cover_via_gdrive (some ⟨1, "link"⟩) st0).2.cache = st0.cache ∧
     get_cover_via_gdrive (some ⟨1, "link"⟩)
         (get_cover_via_gdrive (some ⟨1, "link"⟩) st0).2 =
       (some "link", (get_cover_via_gdrive (some ⟨1, "link"⟩) st0).2)) :=
  ⟨by decide, claim_C9_permission_once ⟨1, "link"⟩ st0 (by decide)⟩

/-- Claim C10: the path-cache invalidation and deletion operations never
touch the permission-grant table: `deleteDatabaseOnChange` and
`deleteDatabaseEntry` leave `perms` (and the grant-call count) unchanged;
the former empties exactly the path cache, the latter removes exactly the
path-cache rows whose `gdrive_id` matches, keeping every other row. -/
theorem claim_C10_frame (st : DriveState) (ID : Nat) :
    (deleteDatabaseOnChange st).perms = st.perms ∧
    (deleteDatabaseOnChange st).grantCalls = st.grantCalls ∧
    (deleteDatabaseEntry ID st).perms = st.perms ∧
    (deleteDatabaseEntry ID st).grantCalls = st.grantCalls ∧
    (deleteDatabaseOnChange st).cache = [] ∧
    (∀ r ∈ st.cache, r.gdrive_id ≠ some ID → r ∈ (deleteDatabaseEntry ID st).cache) ∧
    (∀ r ∈ (deleteDatabaseEntry ID st).cache, r ∈ st.cache ∧ r.gdrive_id ≠ some ID) := by
  refine ⟨rfl, rfl, rfl, rfl, rfl, ?_, ?_⟩
  · intro r hr hne
    simp only [deleteDatabaseEntry, List.mem_filter]
    exact ⟨hr, by simpa using hne⟩
  · intro r hr
    simp only [deleteDatabaseEntry, List.mem_filter] at hr
    exact ⟨hr.1, by simpa using hr.2⟩

/-! ## Schema migration

Embedding of `migrate()`:

    if not engine.dialect.has_table(engine.connect(), "permissions_added"):
        PermissionAdded.__table__.create(bind = engine)
    for sql in session.execute("select sql from sqlite_master where type='table'"):
        if 'CREATE TABLE gdrive_ids' in sql[0]:
            currUniqueConstraint = 'UNIQUE (gdrive_id)'
            if currUniqueConstraint in sql[0]:
                sql=sql[0].replace(currUniqueConstraint, 'UNIQUE (gdrive_id, path)')
                sql=sql.replace(GdriveId.__tablename__, GdriveId.__tablename__ + '2')
                session.execute(sql)
                session.execute("INSERT INTO gdrive_ids2 ... SELECT ... FROM gdrive_ids;")
                session.commit()
                session.execute('DROP TABLE %s' % 'gdrive_ids')
                session.execute('ALTER TABLE gdrive_ids2 RENAME to gdrive_ids')
            break

`SchemaState` carries the stored `CREATE TABLE` text of the `gdrive_ids`
table, whether `permissions_added` exists, and the table's rows.  Python's
`in` on strings is `strContains` (character-list substring search) and
`str.replace` is `strReplace` (leftmost non-overlapping replacement of
every occurrence).  The rewrite-copy-drop-rename dance has, as its net
effect on the schema, exactly the constraint replacement in the stored
SQL (the temporary name `gdrive_ids2` disappears again in the rename),
and the row copy `(id, gdrive_id, path) SELECT id, gdrive_id, path`
preserves the rows, which `migrate` models directly. -/

def startsWithL : List Char → List Char → Bool
  | [], _ => true
  | _ :: _, [] => false
  | a :: as, b :: bs => a == b && startsWithL as bs

def containsL (pat : List Char) : List Char → Bool
  | [] => pat.isEmpty
  | c :: cs => startsWithL pat (c :: cs) || containsL pat cs

def replaceL (pat repl : List Char) : List Char → List Char
  | [] => []
  | c :: cs =>
    if h : pat ≠ [] ∧ startsWithL pat (c :: cs) = true then
      repl ++ replaceL pat repl ((c :: cs).drop pat.length)
    else
      c :: replaceL pat repl cs
termination_by l => l.length
decreasing_by
  · simp only [List.length_drop, List.length_cons]
    have : 0 < pat.length := List.length_pos.mpr h.1
    omega
  · simp

def strContains (pat s : String) : Bool := containsL pat.data s.data

def strReplace (s pat repl : String) : String :=
  String.mk (replaceL pat.data repl.data s.data)

structure SchemaState where
  gdriveSql : String
  permTableExists : Bool
  rows : List GdriveRow
deriving DecidableEq

def migrate (s : SchemaState) : SchemaState :=
  let s1 := { s with permTableExists := true }
  if strContains "CREATE TABLE gdrive_ids" s1.gdriveSql then
    if strContains "UNIQUE (gdrive_id)" s1.gdriveSql then
      { s1 with gdriveSql :=
          strReplace s1.gdriveSql "UNIQUE (gdrive_id)" "UNIQUE (gdrive_id, path)" }
    else s1
  else s1

/-- Claim C6: the migration step is idempotent on an already-migrated
schema: when the permission table exists and the stored `gdrive_ids` DDL
no longer contains the standalone `UNIQUE (gdrive_id)` constraint (only
the widened `UNIQUE (gdrive_id, path)` one, in which the old text does
not occur as a substring), a second `migrate` run leaves the schema text,
the table set and all rows exactly unchanged — and, the embedding being a
total function, it does not error. -/
theorem claim_C6_migrate_idempotent (s : SchemaState)
    (hperm : s.permTableExists = true)
    (hmigrated : strContains "UNIQUE (gdrive_id)" s.gdriveSql = false) :
    migrate s = s := by
  have hs1 : { s with permTableExists := true } = s := by
    cases s
    simp_all
  rw [migrate]
  simp only [hs1, hmigrated]
  split <;> simp

/-- Witness for C6: the post-migration DDL of `gdrive_ids`. -/
theorem claim_C6_witness :
    (SchemaState.mk
      "CREATE TABLE gdrive_ids (id INTEGER NOT NULL, gdrive_id INTEGER, path VARCHAR, PRIMARY KEY (id), CONSTRAINT _gdrive_path_uc UNIQUE (gdrive_id, path), UNIQUE (gdrive_id, path))"
      true [⟨some 1, "/"⟩]).permTableExists = true ∧
    strContains "UNIQUE (gdrive_id)"
      (SchemaState.mk
        "CREATE TABLE gdrive_ids (id INTEGER NOT NULL, gdrive_id INTEGER, path VARCHAR, PRIMARY KEY (id), CONSTRAINT _gdrive_path_uc UNIQUE (gdrive_id, path), UNIQUE (gdrive_id, path))"
        true [⟨some 1, "/"⟩]).gdriveSql = false ∧
    migrate
      (SchemaState.mk
        "CREATE TABLE gdrive_ids (id INTEGER NOT NULL, gdrive_id INTEGER, path VARCHAR, PRIMARY KEY (id), CONSTRAINT _gdrive_path_uc UNIQUE (gdrive_id, path), UNIQUE (gdrive_id, path))"
        true [⟨some 1, "/"⟩]) =
      SchemaState.mk
        "CREATE TABLE gdrive_ids (id INTEGER NOT NULL, gdrive_id INTEGER, path VARCHAR, PRIMARY KEY (id), CONSTRAINT _gdrive_path_uc UNIQUE (gdrive_id, path), UNIQUE (gdrive_id, path))"
        true [⟨some 1, "/"⟩] :=
  ⟨rfl, by decide,
    claim_C6_migrate_idempotent
      (SchemaState.mk
        "CREATE TABLE gdrive_ids (id INTEGER NOT NULL, gdrive_id INTEGER, path VARCHAR, PRIMARY KEY (id), CONSTRAINT _gdrive_path_uc UNIQUE (gdrive_id, path), UNIQUE (gdrive_id, path))"
        true [⟨some 1, "/"⟩]) rfl (by decide)⟩
